import Mathlib

/-!
Verification of the résumé-parser line classifier (`src/resume_parser.py`).

Strings are modelled as `List Char`.  Python's `str.strip()`, substring
containment (`"x" in s`), `str.replace(pat, "")` and `str.split("\n")` are
embedded below; the classifier `parse_pdf_resume` is a fold of `processLine`
over the split lines, mirroring lines 20-61 of the source.  The JSON sink is
modelled structurally (`recordToJson` / `recordOfJson`, lines 63-76), and the
control flow of `main` (lines 103-121) as an event trace (`mainRun`).
-/

/-- Python whitespace predicate used by `str.strip()` (ASCII whitespace:
space, tab, newline, vertical tab, form feed, carriage return). -/
def pySpace (c : Char) : Bool :=
  c = ' ' || c = '\t' || c = '\n' || c = '\x0B' || c = '\x0C' || c = '\r'

/-- Python `str.strip()`: drop leading and trailing whitespace. -/
def strip (s : List Char) : List Char :=
  ((s.dropWhile pySpace).reverse.dropWhile pySpace).reverse

/-- Python substring containment `pat in s`. -/
def containsSub (pat : List Char) : List Char → Bool
  | [] => pat.isEmpty
  | c :: rest => pat.isPrefixOf (c :: rest) || containsSub pat rest

/-- Helper for `removeAll`: the fuel argument only bounds the recursion
depth (each step consumes at least one character, so `s.length` fuel is
always enough) and does not affect the result. -/
def removeAllFuel : Nat → List Char → List Char → List Char
  | 0, _, s => s
  | _ + 1, _, [] => []
  | fuel + 1, pat, c :: rest =>
    if pat.isPrefixOf (c :: rest) ∧ pat ≠ [] then
      removeAllFuel fuel pat (rest.drop (pat.length - 1))
    else
      c :: removeAllFuel fuel pat rest

/-- Python `s.replace(pat, "")`: remove every occurrence of `pat`,
scanning left to right (non-overlapping matches). -/
def removeAll (pat s : List Char) : List Char :=
  removeAllFuel s.length pat s

/-- Python `text.split("\n")`: split on every newline; consecutive
newlines yield empty pieces, and the empty text yields `[[]]`. -/
def splitOnNl : List Char → List (List Char)
  | [] => [[]]
  | c :: rest =>
    if c = '\n' then
      [] :: splitOnNl rest
    else
      match splitOnNl rest with
      | [] => [[c]]
      | l :: ls => (c :: l) :: ls

/-- The label substrings tested by the classifier (source lines 43-51). -/
def nameLabel : List Char := "Name:".data

/-- Label substring for the email rule. -/
def emailLabel : List Char := "Email:".data

/-- Label substring for the education section switch. -/
def educationLabel : List Char := "Education".data

/-- Label substring for the work-experience section switch. -/
def experienceLabel : List Char := "Experience".data

/-- Label substring for the skills section switch. -/
def skillsLabel : List Char := "Skills".data

/-- Dictionary key `"name"` of `personal_info`. -/
def nameKey : List Char := "name".data

/-- Dictionary key `"email"` of `personal_info`. -/
def emailKey : List Char := "email".data

/-- Python dict assignment `d[k] = v` on an insertion-ordered map:
update the existing entry in place, or append a new one. -/
def insertA (k v : List Char) : List (List Char × List Char) → List (List Char × List Char)
  | [] => [(k, v)]
  | (k', v') :: rest => if k' = k then (k, v) :: rest else (k', v') :: insertA k v rest

/-- Python dict lookup `d.get(k)` on an insertion-ordered map. -/
def lookupA (k : List Char) : List (List Char × List Char) → Option (List Char)
  | [] => none
  | (k', v') :: rest => if k' = k then some v' else lookupA k rest

/-- The structured result of `parse_pdf_resume` (source lines 20-25):
a `personal_info` string map and three line lists. -/
structure ResumeRecord where
  personal_info : List (List Char × List Char)
  education : List (List Char)
  work_experience : List (List Char)
  skills : List (List Char)
deriving DecidableEq, Repr

/-- The record as initialized at source lines 20-25: all four fields empty. -/
def emptyRecord : ResumeRecord := ⟨[], [], [], []⟩

/-- The running `section` variable of the scan loop (source line 39):
Python `None` or one of the three section tags. -/
inductive SectionTag where
  | none
  | education
  | work_experience
  | skills
deriving DecidableEq, Repr

/-- State threaded through the scan loop: the record under construction
and the current section. -/
structure ParseState where
  data : ResumeRecord
  sec : SectionTag
deriving DecidableEq, Repr

/-- One iteration of the scan loop (source lines 41-59): strip the line,
then apply the first matching rule of the fixed if/elif chain. -/
def processLine (st : ParseState) (raw : List Char) : ParseState :=
  let line := strip raw
  if containsSub nameLabel line then
    { st with data := { st.data with
        personal_info := insertA nameKey (strip (removeAll nameLabel line)) st.data.personal_info } }
  else if containsSub emailLabel line then
    { st with data := { st.data with
        personal_info := insertA emailKey (strip (removeAll emailLabel line)) st.data.personal_info } }
  else if containsSub educationLabel line then
    { st with sec := SectionTag.education }
  else if containsSub experienceLabel line then
    { st with sec := SectionTag.work_experience }
  else if containsSub skillsLabel line then
    { st with sec := SectionTag.skills }
  else
    match st.sec with
    | SectionTag.education =>
        { st with data := { st.data with education := st.data.education ++ [line] } }
    | SectionTag.work_experience =>
        { st with data := { st.data with work_experience := st.data.work_experience ++ [line] } }
    | SectionTag.skills =>
        { st with data := { st.data with skills := st.data.skills ++ [line] } }
    | SectionTag.none => st

/-- The initial scan state (source lines 20-25 and 39). -/
def initState : ParseState := ⟨emptyRecord, SectionTag.none⟩

/-- `parse_pdf_resume` applied to the already-extracted text (source lines
34-61): empty text returns the initial record immediately; otherwise the
text is split on newlines and scanned line by line. -/
def parse_pdf_resume (text : List Char) : ResumeRecord :=
  if text = [] then emptyRecord
  else ((splitOnNl text).foldl processLine initState).data

/-- Looking up a key right after assigning it returns the assigned value. -/
theorem lookupA_insertA_self (k v : List Char) (m : List (List Char × List Char)) :
    lookupA k (insertA k v m) = some v := by
  induction m with
  | nil => simp [insertA, lookupA]
  | cons kv rest ih =>
    obtain ⟨k', v'⟩ := kv
    by_cases h : k' = k <;> simp [insertA, lookupA, h, ih]

/-- Assigning one key leaves lookups of a different key unchanged. -/
theorem lookupA_insertA_other (k k' : List Char) (h : k ≠ k') (v : List Char)
    (m : List (List Char × List Char)) : lookupA k (insertA k' v m) = lookupA k m := by
  induction m with
  | nil => simp [insertA, lookupA, Ne.symm h]
  | cons kv rest ih =>
    obtain ⟨a, b⟩ := kv
    by_cases ha : a = k' <;> by_cases hk : a = k <;>
      simp_all [insertA, lookupA, Ne.symm h]

/-- C1. A line containing `"Name:"` sets `personal_info.name` to the line
with the label occurrences removed and the result trimmed; a line without
`"Name:"` but containing `"Email:"` does the same for `personal_info.email`
(source lines 43-46). -/
theorem name_email_rules_set_personal_info (st : ParseState) (raw : List Char) :
    (containsSub nameLabel (strip raw) = true →
      lookupA nameKey (processLine st raw).data.personal_info
        = some (strip (removeAll nameLabel (strip raw)))) ∧
    (containsSub nameLabel (strip raw) = false →
      containsSub emailLabel (strip raw) = true →
      lookupA emailKey (processLine st raw).data.personal_info
        = some (strip (removeAll emailLabel (strip raw)))) := by
  constructor
  · intro h
    simp [processLine, h, lookupA_insertA_self]
  · intro hn he
    simp [processLine, hn, he, lookupA_insertA_self]

/-- Witness for C1 on the spec's own example lines. -/
theorem name_email_rules_set_personal_info_witness :
    lookupA nameKey (processLine initState "Name: Jane Doe".data).data.personal_info
      = some "Jane Doe".data ∧
    lookupA emailKey (processLine initState "Email: jane@x.com".data).data.personal_info
      = some "jane@x.com".data := by
  constructor
  · exact ((name_email_rules_set_personal_info initState ("Name: Jane Doe".data)).1
      (by decide)).trans (by decide)
  · exact ((name_email_rules_set_personal_info initState ("Email: jane@x.com".data)).2
      (by decide) (by decide)).trans (by decide)

/-- C2. The if/elif chain applies only the first matching rule: whenever a
section label is the first label contained in the line, that section is set,
the line is not stored, and later checks are skipped — in particular a line
containing both `"Education"` and `"Skills"` switches to education, never to
skills (source lines 43-52). -/
theorem label_priority_first_match (st : ParseState) (raw : List Char) :
    (containsSub nameLabel (strip raw) = false →
      containsSub emailLabel (strip raw) = false →
      containsSub educationLabel (strip raw) = true →
      (processLine st raw).sec = SectionTag.education ∧
      (processLine st raw).sec ≠ SectionTag.skills ∧
      (processLine st raw).data = st.data) ∧
    (containsSub nameLabel (strip raw) = false →
      containsSub emailLabel (strip raw) = false →
      containsSub educationLabel (strip raw) = false →
      containsSub experienceLabel (strip raw) = true →
      (processLine st raw).sec = SectionTag.work_experience ∧
      (processLine st raw).data = st.data) ∧
    (containsSub nameLabel (strip raw) = false →
      containsSub emailLabel (strip raw) = false →
      containsSub educationLabel (strip raw) = false →
      containsSub experienceLabel (strip raw) = false →
      containsSub skillsLabel (strip raw) = true →
      (processLine st raw).sec = SectionTag.skills ∧
      (processLine st raw).data = st.data) := by
  refine ⟨?_, ?_, ?_⟩ <;> intros <;> simp_all [processLine]

/-- Witness for C2: the line `"Education and Skills"` contains both labels
and switches the section to education. -/
theorem label_priority_first_match_witness :
    containsSub skillsLabel (strip "Education and Skills".data) = true ∧
    (processLine initState "Education and Skills".data).sec = SectionTag.education ∧
    (processLine initState "Education and Skills".data).sec ≠ SectionTag.skills := by
  have h := (label_priority_first_match initState ("Education and Skills".data)).1
    (by decide) (by decide) (by decide)
  exact ⟨by decide, h.1, h.2.1⟩

/-- C3. Empty extracted text takes the early-return path (source lines
34-36): the result is the initial all-empty record. -/
theorem empty_text_returns_empty_record :
    parse_pdf_resume [] = emptyRecord ∧ emptyRecord = ⟨[], [], [], []⟩ :=
  ⟨rfl, rfl⟩

/-- Each scan step only ever appends to the three section lists. -/
theorem processLine_lists_extend (st : ParseState) (l : List Char) :
    st.data.education <+: (processLine st l).data.education ∧
    st.data.work_experience <+: (processLine st l).data.work_experience ∧
    st.data.skills <+: (processLine st l).data.skills := by
  simp only [processLine]
  repeat' split
  all_goals simp

/-- C4. The record always carries all four top-level fields, and during
classification the three section lists only grow: the lists of any earlier
state are prefixes of the lists after scanning any further lines
(source lines 20-61). -/
theorem record_fields_present_and_lists_grow (ls : List (List Char)) (st : ParseState) :
    (∃ p e w s, (List.foldl processLine st ls).data = ResumeRecord.mk p e w s) ∧
    st.data.education <+: (List.foldl processLine st ls).data.education ∧
    st.data.work_experience <+: (List.foldl processLine st ls).data.work_experience ∧
    st.data.skills <+: (List.foldl processLine st ls).data.skills := by
  refine ⟨⟨_, _, _, _, rfl⟩, ?_⟩
  induction ls generalizing st with
  | nil => simp
  | cons l rest ih =>
    have h1 := processLine_lists_extend st l
    have h2 := ih (processLine st l)
    simp only [List.foldl_cons]
    exact ⟨h1.1.trans h2.1, h1.2.1.trans h2.2.1, h1.2.2.trans h2.2.2⟩

/-- C8. A line that strips to the empty string matches no label, so while a
section is active the empty string is appended to that section's list
(source lines 41-59). -/
theorem blank_line_appended_to_active_section (st : ParseState) (raw : List Char)
    (h : strip raw = []) :
    (st.sec = SectionTag.education →
      (processLine st raw).data.education = st.data.education ++ [[]]) ∧
    (st.sec = SectionTag.work_experience →
      (processLine st raw).data.work_experience = st.data.work_experience ++ [[]]) ∧
    (st.sec = SectionTag.skills →
      (processLine st raw).data.skills = st.data.skills ++ [[]]) := by
  have c1 : containsSub nameLabel [] = false := by decide
  have c2 : containsSub emailLabel [] = false := by decide
  have c3 : containsSub educationLabel [] = false := by decide
  have c4 : containsSub experienceLabel [] = false := by decide
  have c5 : containsSub skillsLabel [] = false := by decide
  refine ⟨?_, ?_, ?_⟩ <;> intro hs <;> simp [processLine, h, hs, c1, c2, c3, c4, c5]

/-- Witness for C8: a whitespace-only line while the education section is
active appends the empty string. -/
theorem blank_line_appended_to_active_section_witness :
    strip "   ".data = [] ∧
    (processLine ⟨emptyRecord, SectionTag.education⟩ "   ".data).data.education = [[]] := by
  refine ⟨by decide, ?_⟩
  have h := (blank_line_appended_to_active_section ⟨emptyRecord, SectionTag.education⟩
    ("   ".data) (by decide)).1 rfl
  simpa using h

/-- C10. A line triggering the name or email rule changes neither the
current section nor any of the three section lists (source lines 41-59). -/
theorem label_line_frame_effect (st : ParseState) (raw : List Char)
    (h : containsSub nameLabel (strip raw) = true ∨
      containsSub emailLabel (strip raw) = true) :
    (processLine st raw).sec = st.sec ∧
    (processLine st raw).data.education = st.data.education ∧
    (processLine st raw).data.work_experience = st.data.work_experience ∧
    (processLine st raw).data.skills = st.data.skills := by
  rcases h with h | h
  · simp [processLine, h]
  · cases hn : containsSub nameLabel (strip raw) <;> simp [processLine, hn, h]

/-- Witness for C10: a name line processed while the skills section is
active leaves section and lists untouched. -/
theorem label_line_frame_effect_witness :
    (processLine ⟨⟨[], ["X".data], [], []⟩, SectionTag.skills⟩ "Name: A".data).sec
      = SectionTag.skills ∧
    (processLine ⟨⟨[], ["X".data], [], []⟩, SectionTag.skills⟩ "Name: A".data).data.education
      = ["X".data] := by
  have h := label_line_frame_effect ⟨⟨[], ["X".data], [], []⟩, SectionTag.skills⟩
    ("Name: A".data) (Or.inl (by decide))
  exact ⟨h.1, h.2.1⟩

/-- A line whose guards pick neither the name nor the email rule leaves
`personal_info` untouched. -/
theorem personal_info_unchanged (st : ParseState) (raw : List Char)
    (hn : containsSub nameLabel (strip raw) = false)
    (he : containsSub emailLabel (strip raw) = false) :
    (processLine st raw).data.personal_info = st.data.personal_info := by
  simp only [processLine, hn, he]
  repeat' split
  all_goals simp_all

/-- A name-rule line stores the trimmed remainder under key `"name"`. -/
theorem lookupA_name_set (st : ParseState) (raw : List Char)
    (h : containsSub nameLabel (strip raw) = true) :
    lookupA nameKey (processLine st raw).data.personal_info
      = some (strip (removeAll nameLabel (strip raw))) := by
  simp [processLine, h, lookupA_insertA_self]

/-- An email-rule line stores the trimmed remainder under key `"email"`. -/
theorem lookupA_email_set (st : ParseState) (raw : List Char)
    (hn : containsSub nameLabel (strip raw) = false)
    (he : containsSub emailLabel (strip raw) = true) :
    lookupA emailKey (processLine st raw).data.personal_info
      = some (strip (removeAll emailLabel (strip raw))) := by
  simp [processLine, hn, he, lookupA_insertA_self]

/-- A line not containing `"Name:"` never changes the stored name. -/
theorem lookupA_name_preserved (st : ParseState) (raw : List Char)
    (h : containsSub nameLabel (strip raw) = false) :
    lookupA nameKey (processLine st raw).data.personal_info
      = lookupA nameKey st.data.personal_info := by
  cases he : containsSub emailLabel (strip raw) with
  | true => simp [processLine, h, he, lookupA_insertA_other nameKey emailKey (by decide)]
  | false => rw [personal_info_unchanged st raw h he]

/-- A line that does not trigger the email rule never changes the stored
email (either it contains `"Name:"`, or it lacks `"Email:"`). -/
theorem lookupA_email_preserved (st : ParseState) (raw : List Char)
    (h : containsSub nameLabel (strip raw) = true ∨
      containsSub emailLabel (strip raw) = false) :
    lookupA emailKey (processLine st raw).data.personal_info
      = lookupA emailKey st.data.personal_info := by
  rcases h with h | h
  · simp [processLine, h, lookupA_insertA_other emailKey nameKey (by decide)]
  · cases hn : containsSub nameLabel (strip raw) with
    | true => simp [processLine, hn, lookupA_insertA_other emailKey nameKey (by decide)]
    | false => rw [personal_info_unchanged st raw hn h]

/-- Scanning lines none of which contains `"Name:"` preserves the name. -/
theorem foldl_name_preserved (ls : List (List Char)) (st : ParseState)
    (h : ∀ l ∈ ls, containsSub nameLabel (strip l) = false) :
    lookupA nameKey ((List.foldl processLine st ls).data.personal_info)
      = lookupA nameKey st.data.personal_info := by
  induction ls generalizing st with
  | nil => rfl
  | cons l rest ih =>
    simp only [List.foldl_cons]
    rw [ih _ (fun x hx => h x (List.mem_cons_of_mem _ hx)),
      lookupA_name_preserved st l (h l (List.mem_cons_self _ _))]

/-- Scanning lines none of which triggers the email rule preserves the
stored email. -/
theorem foldl_email_preserved (ls : List (List Char)) (st : ParseState)
    (h : ∀ l ∈ ls, containsSub nameLabel (strip l) = true ∨
      containsSub emailLabel (strip l) = false) :
    lookupA emailKey ((List.foldl processLine st ls).data.personal_info)
      = lookupA emailKey st.data.personal_info := by
  induction ls generalizing st with
  | nil => rfl
  | cons l rest ih =>
    simp only [List.foldl_cons]
    rw [ih _ (fun x hx => h x (List.mem_cons_of_mem _ hx)),
      lookupA_email_preserved st l (h l (List.mem_cons_self _ _))]

/-- C9. With several `"Name:"` (resp. `"Email:"`) lines, each assignment
overwrites the previous one, so the final value comes from the last such
line in document order (source lines 43-46). -/
theorem last_label_line_wins (st : ParseState) (pre suf : List (List Char)) (l : List Char) :
    (containsSub nameLabel (strip l) = true →
      (∀ l' ∈ suf, containsSub nameLabel (strip l') = false) →
      lookupA nameKey ((List.foldl processLine st (pre ++ l :: suf)).data.personal_info)
        = some (strip (removeAll nameLabel (strip l)))) ∧
    (containsSub nameLabel (strip l) = false →
      containsSub emailLabel (strip l) = true →
      (∀ l' ∈ suf, containsSub nameLabel (strip l') = true ∨
        containsSub emailLabel (strip l') = false) →
      lookupA emailKey ((List.foldl processLine st (pre ++ l :: suf)).data.personal_info)
        = some (strip (removeAll emailLabel (strip l)))) := by
  constructor
  · intro hl hsuf
    rw [List.foldl_append]
    simp only [List.foldl_cons]
    rw [foldl_name_preserved suf _ hsuf,
      lookupA_name_set (List.foldl processLine st pre) l hl]
  · intro hn he hsuf
    rw [List.foldl_append]
    simp only [List.foldl_cons]
    rw [foldl_email_preserved suf _ hsuf,
      lookupA_email_set (List.foldl processLine st pre) l hn he]

/-- Witness for C9: two name lines and two email lines; the later one wins
in each case. -/
theorem last_label_line_wins_witness :
    lookupA nameKey ((List.foldl processLine initState
        ["Name: A".data, "Name: B".data]).data.personal_info) = some "B".data ∧
    lookupA emailKey ((List.foldl processLine initState
        ["Email: a@b.c".data, "Email: d@e.f".data]).data.personal_info)
      = some "d@e.f".data := by
  constructor
  · have h := (last_label_line_wins initState ["Name: A".data] [] ("Name: B".data)).1
      (by decide) (by simp)
    exact h.trans (by decide)
  · have h := (last_label_line_wins initState ["Email: a@b.c".data] []
      ("Email: d@e.f".data)).2 (by decide) (by decide) (by simp)
    exact h.trans (by decide)

/-- The warning message logged at source line 35. -/
def warnMsg : List Char := "No text extracted from the resume.".data

/-- One classifier run against the ambient module state.  The only
module-level mutable object touched by `parse_pdf_resume` is the logging
stream; the classifier reads none of it and appends the source-line-35
warning exactly when the extracted text is empty. -/
def runClassifier (log : List (List Char)) (text : List Char) :
    ResumeRecord × List (List Char) :=
  (parse_pdf_resume text, if text = [] then log ++ [warnMsg] else log)

/-- Two runs of the classifier on the same text, the second starting from
whatever ambient state the first run left behind. -/
def runTwice (text : List Char) : ResumeRecord × ResumeRecord :=
  ((runClassifier [] text).1, (runClassifier (runClassifier [] text).2 text).1)

/-- C6. The classifier is deterministic and carries no state between runs:
running it twice on the same text, the second time in the state left by the
first, yields structurally identical records (source lines 10-61). -/
theorem classifier_deterministic_across_runs (text : List Char) :
    (runTwice text).1 = (runTwice text).2 ∧
    (runTwice text).1 = parse_pdf_resume text :=
  ⟨rfl, rfl⟩

/-- Observable steps of a `main` invocation (source lines 103-121). -/
inductive RunEvent where
  | logErrorMissing
  | extractAttempt
  | logErrorExtract
  | printOut
  | writeAttempt
  | logErrorWrite
  | logSaved
deriving DecidableEq, Repr

/-- Outcome of a `main` invocation: the ordered event trace and whether an
exception propagated to the shell. -/
structure RunOutcome where
  events : List RunEvent
  raised : Bool
deriving DecidableEq, Repr

/-- Control-flow model of `main` (source lines 103-121): the file-existence
check comes first and returns after logging; otherwise extraction runs (and
re-raises on failure, line 32), then the console print, then the JSON write
(re-raising on failure, line 76), then the success log. -/
def mainRun (fileExists extractOk writeOk : Bool) : RunOutcome :=
  if fileExists = false then
    ⟨[RunEvent.logErrorMissing], false⟩
  else if extractOk = false then
    ⟨[RunEvent.extractAttempt, RunEvent.logErrorExtract], true⟩
  else if writeOk = false then
    ⟨[RunEvent.extractAttempt, RunEvent.printOut, RunEvent.writeAttempt,
      RunEvent.logErrorWrite], true⟩
  else
    ⟨[RunEvent.extractAttempt, RunEvent.printOut, RunEvent.writeAttempt,
      RunEvent.logSaved], false⟩

/-- C5. With a nonexistent input path the run logs an error and returns
normally: whatever the would-be extraction or write results, no extraction
is attempted, no output write happens, and nothing is raised
(source lines 109-111). -/
theorem missing_input_early_exit (extractOk writeOk : Bool) :
    mainRun false extractOk writeOk = ⟨[RunEvent.logErrorMissing], false⟩ ∧
    RunEvent.logErrorMissing ∈ (mainRun false extractOk writeOk).events ∧
    RunEvent.extractAttempt ∉ (mainRun false extractOk writeOk).events ∧
    RunEvent.writeAttempt ∉ (mainRun false extractOk writeOk).events ∧
    (mainRun false extractOk writeOk).raised = false := by
  cases extractOk <;> cases writeOk <;> decide

/-- JSON values as produced by `json.dump` for this record shape. -/
inductive Jval where
  | jstr (s : List Char)
  | jarr (elems : List Jval)
  | jobj (fields : List (List Char × Jval))

/-- JSON object key `"personal_info"`. -/
def piKey : List Char := "personal_info".data

/-- JSON object key `"education"`. -/
def eduKey : List Char := "education".data

/-- JSON object key `"work_experience"`. -/
def workKey : List Char := "work_experience".data

/-- JSON object key `"skills"`. -/
def skillsKey : List Char := "skills".data

/-- The JSON value `save_to_json` dumps (source lines 63-76): the record as
an object of four keys in declaration order. -/
def recordToJson (r : ResumeRecord) : Jval :=
  Jval.jobj [
    (piKey, Jval.jobj (r.personal_info.map (fun kv => (kv.1, Jval.jstr kv.2)))),
    (eduKey, Jval.jarr (r.education.map Jval.jstr)),
    (workKey, Jval.jarr (r.work_experience.map Jval.jstr)),
    (skillsKey, Jval.jarr (r.skills.map Jval.jstr))]

/-- Decode a JSON array of strings back to a list of strings. -/
def decodeStrs : List Jval → Option (List (List Char))
  | [] => some []
  | Jval.jstr s :: rest => (decodeStrs rest).map (fun t => s :: t)
  | _ => none

/-- Decode a JSON object of string fields back to a string map. -/
def decodeFields : List (List Char × Jval) → Option (List (List Char × List Char))
  | [] => some []
  | (k, Jval.jstr v) :: rest => (decodeFields rest).map (fun t => (k, v) :: t)
  | _ => none

/-- Reading the dumped JSON back into the four-field record, as `json.load`
reconstructs it. -/
def recordOfJson : Jval → Option ResumeRecord
  | Jval.jobj [(k1, Jval.jobj pf), (k2, Jval.jarr ed), (k3, Jval.jarr we),
      (k4, Jval.jarr sk)] =>
    if k1 = piKey ∧ k2 = eduKey ∧ k3 = workKey ∧ k4 = skillsKey then
      match decodeFields pf, decodeStrs ed, decodeStrs we, decodeStrs sk with
      | some p, some e, some w, some s => some ⟨p, e, w, s⟩
      | _, _, _, _ => none
    else none
  | _ => none

/-- Decoding inverts encoding on string arrays. -/
theorem decodeStrs_map (xs : List (List Char)) :
    decodeStrs (xs.map Jval.jstr) = some xs := by
  induction xs with
  | nil => rfl
  | cons x rest ih => simp [decodeStrs, ih]

/-- Decoding inverts encoding on string-field objects. -/
theorem decodeFields_map (m : List (List Char × List Char)) :
    decodeFields (m.map (fun kv => (kv.1, Jval.jstr kv.2))) = some m := by
  induction m with
  | nil => rfl
  | cons kv rest ih =>
    obtain ⟨k, v⟩ := kv
    simp [decodeFields, ih]

/-- C7. Serializing any four-field record to JSON and parsing it back
yields the original record in all four fields (source lines 63-76). -/
theorem json_round_trip (r : ResumeRecord) :
    recordOfJson (recordToJson r) = some r := by
  obtain ⟨p, e, w, s⟩ := r
  simp [recordToJson, recordOfJson, decodeStrs_map, decodeFields_map]
